import Mathlib

/-!
Verification of the MaterialX `Material.h` reference-resolution core.

The repository provides a single source file, `source/MaterialXCore/Material.h`,
declaring the classes `Material`, `ShaderRef`, `BindParam`, `BindInput`,
`Override` and `MaterialInherit` on top of a generic element tree.  The
generic element tree (`Element`, `ValueElement`) and the out-of-line method
bodies (`Material.cpp`) are not part of the sources; those parts are modelled
from the specification (its sections 4 and 6), and each such definition is
marked `Modelled from the spec:`.  Everything else is translated directly
from the inline bodies in `Material.h`.
-/

set_option autoImplicit false

namespace MaterialX

/-- An element of the document tree: a category tag, a name, an ordered list
of string attributes (key-value pairs) and an ordered list of children.
Modelled from the spec: the generic `Element` container of `Element.h` is an
external collaborator that is not under the sources; per section 2/6 every
element has a category tag, a unique name among its siblings, string
attributes and ordered named children. -/
inductive Elem where
  | mk : String → String → List (String × String) → List Elem → Elem

mutual

/-- Decidable equality of elements, by structural recursion. -/
def Elem.decEq : (a b : Elem) → Decidable (a = b)
  | .mk c1 n1 a1 ch1, .mk c2 n2 a2 ch2 =>
    have : Decidable (ch1 = ch2) := Elem.decEqList ch1 ch2
    decidable_of_iff (c1 = c2 ∧ n1 = n2 ∧ a1 = a2 ∧ ch1 = ch2) (by
      constructor
      · rintro ⟨rfl, rfl, rfl, rfl⟩; rfl
      · intro h; injection h with h1 h2 h3 h4; exact ⟨h1, h2, h3, h4⟩)

/-- Decidable equality of element lists, by structural recursion. -/
def Elem.decEqList : (a b : List Elem) → Decidable (a = b)
  | [], [] => isTrue rfl
  | [], _ :: _ => isFalse (by simp)
  | _ :: _, [] => isFalse (by simp)
  | x :: xs, y :: ys =>
    have h1 : Decidable (x = y) := Elem.decEq x y
    have h2 : Decidable (xs = ys) := Elem.decEqList xs ys
    decidable_of_iff (x = y ∧ xs = ys) (by
      constructor
      · rintro ⟨rfl, rfl⟩; rfl
      · intro h; injection h with ha hb; exact ⟨ha, hb⟩)

end

instance : DecidableEq Elem := Elem.decEq

/-- The category tag of an element. -/
def Elem.category : Elem → String
  | .mk c _ _ _ => c

/-- The name of an element. -/
def Elem.name : Elem → String
  | .mk _ n _ _ => n

/-- The attribute list of an element. -/
def Elem.attrs : Elem → List (String × String)
  | .mk _ _ a _ => a

/-- The children of an element. -/
def Elem.children : Elem → List Elem
  | .mk _ _ _ ch => ch

/-- Replace the child list of an element. -/
def Elem.setChildren : Elem → List Elem → Elem
  | .mk c n a _, ch => .mk c n a ch

/-- Replace the attribute list of an element. -/
def Elem.setAttrs : Elem → List (String × String) → Elem
  | .mk c n _ ch, a => .mk c n a ch

/-! ### Category tags

Modelled from the spec: the category-tag string constants (`Material::CATEGORY`
and friends) are declared in `Material.h` but defined in the implementation
files that are not under the sources; only their pairwise distinctness is used. -/

/-- Modelled from the spec: the category tag of Material elements. -/
def Material.CATEGORY : String := "material"

/-- Modelled from the spec: the category tag of ShaderRef elements. -/
def ShaderRef.CATEGORY : String := "shaderref"

/-- Modelled from the spec: the category tag of BindParam elements. -/
def BindParam.CATEGORY : String := "bindparam"

/-- Modelled from the spec: the category tag of BindInput elements. -/
def BindInput.CATEGORY : String := "bindinput"

/-- Modelled from the spec: the category tag of Override elements. -/
def Override.CATEGORY : String := "override"

/-- Modelled from the spec: the category tag of MaterialInherit elements. -/
def MaterialInherit.CATEGORY : String := "materialinherit"

/-- Modelled from the spec: the category tag of NodeDef elements. -/
def NodeDef.CATEGORY : String := "nodedef"

/-- Modelled from the spec: the category tag of NodeGraph elements. -/
def NodeGraph.CATEGORY : String := "nodegraph"

/-- Modelled from the spec: the category tag of Output elements. -/
def Output.CATEGORY : String := "output"

/-- Modelled from the spec: the category tag of Input elements. -/
def Input.CATEGORY : String := "input"

/-- Modelled from the spec: the category tag of Parameter elements. -/
def Parameter.CATEGORY : String := "parameter"

/-! ### Attribute storage (modelled from the spec, section 6) -/

/-- Modelled from the spec: the key-value attribute store of the Element
collaborator; setting a key replaces its value in place, or appends a new
entry when the key is absent. -/
def setAttrList : List (String × String) → String → String → List (String × String)
  | [], k, v => [(k, v)]
  | (k', v') :: rest, k, v =>
    if k' = k then (k, v) :: rest else (k', v') :: setAttrList rest k v

/-- Modelled from the spec: `Element::setAttribute(key, value)` (section 6). -/
def Elem.setAttribute (e : Elem) (k v : String) : Elem :=
  e.setAttrs (setAttrList e.attrs k v)

/-- Modelled from the spec: `Element::getAttribute(key)` (section 6), returning
the empty string when the key is absent. -/
def Elem.getAttribute (e : Elem) (k : String) : String :=
  match e.attrs.find? (fun p => p.1 == k) with
  | some p => p.2
  | none => ""

/-- Modelled from the spec: `Element::hasAttribute(key)` (section 6). -/
def Elem.hasAttribute (e : Elem) (k : String) : Bool :=
  (e.attrs.find? (fun p => p.1 == k)).isSome

/-! ### Generic child operations (modelled from the spec, section 6) -/

/-- Modelled from the spec: `Element::getChildOfType<T>(name)` (section 6):
the child with the given category and name, or absent. -/
def Elem.getChildOfType (e : Elem) (cat n : String) : Option Elem :=
  e.children.find? (fun c => c.category == cat && c.name == n)

/-- Modelled from the spec: `Element::getChildrenOfType<T>()` (section 6): the
children with the given category, in insertion order. -/
def Elem.getChildrenOfType (e : Elem) (cat : String) : List Elem :=
  e.children.filter (fun c => c.category == cat)

/-- Modelled from the spec: `Element::removeChildOfType<T>(name)` (section 6):
remove the child with the given category and name; a no-op if absent. -/
def Elem.removeChildOfType (e : Elem) (cat n : String) : Elem :=
  e.setChildren (e.children.filter (fun c => !(c.category == cat && c.name == n)))

/-- Modelled from the spec: the name synthesis performed by `addChild` when no
name is given (section 6): a name of the form category-plus-number that no
sibling carries; by pigeonhole one of the first `length + 1` candidates is free. -/
def Elem.synthChildName (e : Elem) (cat : String) : String :=
  (((List.range (e.children.length + 1)).map (fun k => cat ++ toString (k + 1))).find?
    (fun n => !(e.children.any (fun c => c.name == n)))).getD (cat ++ "0")

/-- Modelled from the spec: `Element::addChild<T>(name)` (section 6): append a
new child with the given category and name, synthesizing a name when the given
one is empty; sibling-name uniqueness is enforced, so the call fails (the C++
throws) when a sibling with that name already exists.  Returns the updated
parent and the new child's name. -/
def Elem.addChild (e : Elem) (cat n : String) : Option (Elem × String) :=
  let childName := if n = "" then e.synthChildName cat else n
  if e.children.any (fun c => c.name == childName) then none
  else some (e.setChildren (e.children ++ [Elem.mk cat childName [] []]), childName)

/-- Apply a function to the children with the given category and name; this
models the C++ pattern of mutating, through its pointer, a child obtained from
`getChildOfType`. -/
def Elem.modifyChildOfType (e : Elem) (cat n : String) (f : Elem → Elem) : Elem :=
  e.setChildren (e.children.map (fun c =>
    if c.category == cat && c.name == n then f c else c))

/-! ### Attribute key constants

Modelled from the spec: declared in `Material.h`, defined in the missing
implementation file; only their pairwise distinctness is used. -/

/-- Modelled from the spec: `ShaderRef::NODE_ATTRIBUTE`. -/
def ShaderRef.NODE_ATTRIBUTE : String := "node"

/-- Modelled from the spec: `ShaderRef::NODE_DEF_ATTRIBUTE`. -/
def ShaderRef.NODE_DEF_ATTRIBUTE : String := "nodedef"

/-- Modelled from the spec: `BindInput::NODE_GRAPH_ATTRIBUTE`. -/
def BindInput.NODE_GRAPH_ATTRIBUTE : String := "nodegraph"

/-- Modelled from the spec: `BindInput::OUTPUT_ATTRIBUTE`. -/
def BindInput.OUTPUT_ATTRIBUTE : String := "output"

/-! ### Inline accessors translated from `Material.h` -/

/-- `Material::getShaderRef` (Material.h lines 68-71). -/
def Material.getShaderRef (m : Elem) (n : String) : Option Elem :=
  m.getChildOfType ShaderRef.CATEGORY n

/-- `Material::getShaderRefs` (Material.h lines 74-77). -/
def Material.getShaderRefs (m : Elem) : List Elem :=
  m.getChildrenOfType ShaderRef.CATEGORY

/-- `Material::removeShaderRef` (Material.h lines 80-83). -/
def Material.removeShaderRef (m : Elem) (n : String) : Elem :=
  m.removeChildOfType ShaderRef.CATEGORY n

/-- `Material::addOverride` (Material.h lines 94-97). -/
def Material.addOverride (m : Elem) (n : String) : Option (Elem × String) :=
  m.addChild Override.CATEGORY n

/-- `Material::getOverride` (Material.h lines 100-103). -/
def Material.getOverride (m : Elem) (n : String) : Option Elem :=
  m.getChildOfType Override.CATEGORY n

/-- `Material::getOverrides` (Material.h lines 106-109). -/
def Material.getOverrides (m : Elem) : List Elem :=
  m.getChildrenOfType Override.CATEGORY

/-- `Material::removeOverride` (Material.h lines 112-115). -/
def Material.removeOverride (m : Elem) (n : String) : Elem :=
  m.removeChildOfType Override.CATEGORY n

/-- `Material::addMaterialInherit` (Material.h lines 132-136). -/
def Material.addMaterialInherit (m : Elem) (n : String) : Option (Elem × String) :=
  m.addChild MaterialInherit.CATEGORY n

/-- `Material::getMaterialInherit` (Material.h lines 139-142). -/
def Material.getMaterialInherit (m : Elem) (n : String) : Option Elem :=
  m.getChildOfType MaterialInherit.CATEGORY n

/-- `Material::getMaterialInherits` (Material.h lines 145-148). -/
def Material.getMaterialInherits (m : Elem) : List Elem :=
  m.getChildrenOfType MaterialInherit.CATEGORY

/-- `Material::removeMaterialInherit` (Material.h lines 151-154). -/
def Material.removeMaterialInherit (m : Elem) (n : String) : Elem :=
  m.removeChildOfType MaterialInherit.CATEGORY n

/-- `BindInput::setNodeGraphString` (Material.h lines 229-232). -/
def BindInput.setNodeGraphString (bi : Elem) (g : String) : Elem :=
  bi.setAttribute BindInput.NODE_GRAPH_ATTRIBUTE g

/-- `BindInput::getNodeGraphString` (Material.h lines 235-238). -/
def BindInput.getNodeGraphString (bi : Elem) : String :=
  bi.getAttribute BindInput.NODE_GRAPH_ATTRIBUTE

/-- `BindInput::setOutputString` (Material.h lines 245-248). -/
def BindInput.setOutputString (bi : Elem) (o : String) : Elem :=
  bi.setAttribute BindInput.OUTPUT_ATTRIBUTE o

/-- `BindInput::getOutputString` (Material.h lines 251-254). -/
def BindInput.getOutputString (bi : Elem) : String :=
  bi.getAttribute BindInput.OUTPUT_ATTRIBUTE

/-- `ShaderRef::setNode` (Material.h lines 291-294). -/
def ShaderRef.setNode (sr : Elem) (node : String) : Elem :=
  sr.setAttribute ShaderRef.NODE_ATTRIBUTE node

/-- `ShaderRef::hasNode` (Material.h lines 297-300). -/
def ShaderRef.hasNode (sr : Elem) : Bool :=
  sr.hasAttribute ShaderRef.NODE_ATTRIBUTE

/-- `ShaderRef::getNode` (Material.h lines 303-306). -/
def ShaderRef.getNode (sr : Elem) : String :=
  sr.getAttribute ShaderRef.NODE_ATTRIBUTE

/-- `ShaderRef::setNodeDef` (Material.h lines 313-316). -/
def ShaderRef.setNodeDef (sr : Elem) (nodeDef : String) : Elem :=
  sr.setAttribute ShaderRef.NODE_DEF_ATTRIBUTE nodeDef

/-- `ShaderRef::hasNodeDef` (Material.h lines 319-322). -/
def ShaderRef.hasNodeDef (sr : Elem) : Bool :=
  sr.hasAttribute ShaderRef.NODE_DEF_ATTRIBUTE

/-- `ShaderRef::getNodeDef` (Material.h lines 325-328). -/
def ShaderRef.getNodeDef (sr : Elem) : String :=
  sr.getAttribute ShaderRef.NODE_DEF_ATTRIBUTE

/-- `ShaderRef::getBindParam` (Material.h lines 348-351). -/
def ShaderRef.getBindParam (sr : Elem) (n : String) : Option Elem :=
  sr.getChildOfType BindParam.CATEGORY n

/-- `ShaderRef::getBindParams` (Material.h lines 354-357). -/
def ShaderRef.getBindParams (sr : Elem) : List Elem :=
  sr.getChildrenOfType BindParam.CATEGORY

/-- `ShaderRef::removeBindParam` (Material.h lines 360-363). -/
def ShaderRef.removeBindParam (sr : Elem) (n : String) : Elem :=
  sr.removeChildOfType BindParam.CATEGORY n

/-- `ShaderRef::getBindInput` (Material.h lines 383-386). -/
def ShaderRef.getBindInput (sr : Elem) (n : String) : Option Elem :=
  sr.getChildOfType BindInput.CATEGORY n

/-- `ShaderRef::getBindInputs` (Material.h lines 389-392). -/
def ShaderRef.getBindInputs (sr : Elem) : List Elem :=
  sr.getChildrenOfType BindInput.CATEGORY

/-- `ShaderRef::removeBindInput` (Material.h lines 395-398). -/
def ShaderRef.removeBindInput (sr : Elem) (n : String) : Elem :=
  sr.removeChildOfType BindInput.CATEGORY n

/-! ### Resolution operations -/

/-- Modelled from the spec: `ValueElement::setValue` (Value.h is not under the
sources): record the value and the type attributes of the element (section 3
lists type and value as the key attributes of value-carrying elements). -/
def ValueElement.setValue (e : Elem) (v ty : String) : Elem :=
  (e.setAttribute "value" v).setAttribute "type" ty

/-- Modelled from the spec: `Material::setInheritsFrom` (declared at
Material.h line 173, body in the missing implementation file): clear any
existing MaterialInherit children, then, when a target material is given, add
one MaterialInherit child carrying the target's name (sections 4.2 and 3); the
add fails, as the C++ throws, when a remaining sibling already has that name. -/
def Material.setInheritsFrom (m : Elem) (target : Option String) : Option Elem :=
  let cleared := m.setChildren (m.children.filter
    (fun c => !(c.category == MaterialInherit.CATEGORY)))
  match target with
  | none => some cleared
  | some t => (cleared.addChild MaterialInherit.CATEGORY t).map Prod.fst

/-- Modelled from the spec: `Material::getInheritsFrom` (declared at
Material.h line 176): the Resolve-by-document-name result for the first
MaterialInherit child's recorded name — the child's own name — or absent when
no MaterialInherit child exists (sections 4.2 and 3). -/
def Material.getInheritsFrom (doc m : Elem) : Option Elem :=
  match Material.getMaterialInherits m with
  | [] => none
  | inh :: _ => doc.getChildOfType Material.CATEGORY inh.name

/-- Modelled from the spec: `ShaderRef::getReferencedShaderDef` (declared at
Material.h line 405): Resolve-by-document-name on the node-definition name
attribute, falling back to matching NodeDefs by plain node name when no
node-definition name is set (section 4.3). -/
def ShaderRef.getReferencedShaderDef (doc sr : Elem) : Option Elem :=
  if ShaderRef.hasNodeDef sr then
    doc.getChildOfType NodeDef.CATEGORY (ShaderRef.getNodeDef sr)
  else if ShaderRef.hasNode sr then
    (doc.getChildrenOfType NodeDef.CATEGORY).find?
      (fun nd => nd.getAttribute ShaderRef.NODE_ATTRIBUTE == ShaderRef.getNode sr)
  else none

/-- Modelled from the spec: `BindInput::getConnectedOutput` (declared at
Material.h line 264): the two-stage Resolve-output-reference (sections 4.1 and
3) — an empty node-graph name means the document root, otherwise the NodeGraph
child of that name; then the Output child of that scope carrying the recorded
output name; absence at either stage yields absent. -/
def BindInput.getConnectedOutput (doc bi : Elem) : Option Elem :=
  if BindInput.getNodeGraphString bi = "" then
    doc.getChildOfType Output.CATEGORY (BindInput.getOutputString bi)
  else
    match doc.getChildOfType NodeGraph.CATEGORY (BindInput.getNodeGraphString bi) with
    | none => none
    | some ng => ng.getChildOfType Output.CATEGORY (BindInput.getOutputString bi)

/-- `ShaderRef::getReferencedOutputs` (Material.h lines 408-420): iterate the
BindInput children in order and insert each resolved connected output into the
result; the C++ collects into a set of pointers, modelled here as insertion
that skips an output already collected. -/
def ShaderRef.getReferencedOutputs (doc sr : Elem) : List Elem :=
  (ShaderRef.getBindInputs sr).foldl (fun acc bi =>
    match BindInput.getConnectedOutput doc bi with
    | some o => if acc.contains o then acc else acc ++ [o]
    | none => acc) []

/-- Modelled from the spec: `Material::getReferencedShaderDefs` (declared at
Material.h line 161): for every ShaderRef child in insertion order, collect
its resolved shader NodeDef, skipping ShaderRefs whose definition does not
resolve and preserving duplicates (section 4.2). -/
def Material.getReferencedShaderDefs (doc m : Elem) : List Elem :=
  (Material.getShaderRefs m).foldl (fun acc sr =>
    match ShaderRef.getReferencedShaderDef doc sr with
    | some nd => acc ++ [nd]
    | none => acc) []

/-- The first settable child (a Parameter or an Input) of a NodeDef with the
given name; helper for Resolve-receiver (section 4.1). -/
def findSettable (nd : Elem) (n : String) : Option Elem :=
  nd.children.find? (fun c =>
    (c.category == Parameter.CATEGORY || c.category == Input.CATEGORY) && c.name == n)

/-- Modelled from the spec: `Override::getReceiver` (declared at Material.h
line 448): scan the Parameters and Inputs of the NodeDefs resolved from the
owning Material's ShaderRefs for the first element whose name equals the
Override's own name; absent when nothing matches (sections 4.1 and 4.4). -/
def Override.getReceiver (doc mat ov : Elem) : Option Elem :=
  (Material.getReferencedShaderDefs doc mat).findSome? (fun nd => findSettable nd ov.name)

/-- `Material::setOverrideValue` (Material.h lines 471-480): fetch the
Override child of the given name, create it when absent, then set its value;
fails, as the C++ addChild throws, when a child of another category already
carries the name.  Returns the updated material and the name of the Override
the C++ returns a pointer to. -/
def Material.setOverrideValue (m : Elem) (n v ty : String) : Option (Elem × String) :=
  match m.getChildOfType Override.CATEGORY n with
  | some _ =>
    some (m.modifyChildOfType Override.CATEGORY n (fun c => ValueElement.setValue c v ty), n)
  | none =>
    match m.addChild Override.CATEGORY n with
    | none => none
    | some (m1, cn) =>
      some (m1.modifyChildOfType Override.CATEGORY cn (fun c => ValueElement.setValue c v ty), cn)

/-! ### Validation -/

/-- Does a character list start with the given pattern? -/
def charStartsWith : List Char → List Char → Bool
  | _, [] => true
  | [], _ :: _ => false
  | c :: cs, p :: ps => c == p && charStartsWith cs ps

/-- Does a character list contain the given pattern as a contiguous sublist? -/
def charHasSub : List Char → List Char → Bool
  | [], pat => pat.isEmpty
  | c :: cs, pat => charStartsWith (c :: cs) pat || charHasSub cs pat

/-- A diagnostic mentions a cycle when it contains the word cycle. -/
def mentionsCycle (s : String) : Bool :=
  charHasSub s.toList "cycle".toList

/-- Modelled from the spec: the inheritance-chain check of `Material::validate`
(section 4.5 step 2): repeatedly follow getInheritsFrom, failing when a
material name already seen is revisited; the fuel bounds the walk by the
number of materials in the document, so exhausted fuel likewise means a
revisit happened. -/
def inheritChainWalk (doc : Elem) : Nat → List String → Elem → Bool
  | 0, _, _ => false
  | fuel + 1, seen, m =>
    match Material.getInheritsFrom doc m with
    | none => true
    | some next =>
      if seen.contains next.name then false
      else inheritChainWalk doc fuel (next.name :: seen) next

/-- Modelled from the spec: `Material::validate` (declared at Material.h line
184, body in the missing implementation file): per section 4.5 it checks that
every ShaderRef whose node-definition name is set resolves to an existing
NodeDef, that the inheritance chain terminates without revisiting a material
already seen, and that every BindInput's two-stage output reference either
resolves fully or is entirely unset; findings are appended to the message sink
and the result is success exactly when there is no finding. -/
def Material.validate (doc m : Elem) : Bool × List String :=
  let srFindings := (Material.getShaderRefs m).filterMap (fun sr =>
    if ShaderRef.hasNodeDef sr &&
        (doc.getChildOfType NodeDef.CATEGORY (ShaderRef.getNodeDef sr)).isNone then
      some ("shaderref " ++ sr.name ++ " references a nodedef that does not exist")
    else none)
  let biFindings := (Material.getShaderRefs m).flatMap (fun sr =>
    (ShaderRef.getBindInputs sr).filterMap (fun bi =>
      if (bi.hasAttribute BindInput.NODE_GRAPH_ATTRIBUTE ||
          bi.hasAttribute BindInput.OUTPUT_ATTRIBUTE) &&
          (BindInput.getConnectedOutput doc bi).isNone then
        some ("bindinput " ++ bi.name ++ " references an output that does not exist")
      else none))
  let inhFindings :=
    if inheritChainWalk doc ((doc.getChildrenOfType Material.CATEGORY).length + 1)
        [m.name] m then []
    else ["material inheritance cycle detected"]
  let findings := srFindings ++ biFindings ++ inhFindings
  (findings.isEmpty, findings)

/-! ## Basic lemmas about the element tree -/

@[simp] theorem Elem.category_mk (c n : String) (a : List (String × String))
    (ch : List Elem) : (Elem.mk c n a ch).category = c := rfl

@[simp] theorem Elem.name_mk (c n : String) (a : List (String × String))
    (ch : List Elem) : (Elem.mk c n a ch).name = n := rfl

@[simp] theorem Elem.attrs_mk (c n : String) (a : List (String × String))
    (ch : List Elem) : (Elem.mk c n a ch).attrs = a := rfl

@[simp] theorem Elem.children_mk (c n : String) (a : List (String × String))
    (ch : List Elem) : (Elem.mk c n a ch).children = ch := rfl

@[simp] theorem Elem.category_setChildren (e : Elem) (ch : List Elem) :
    (e.setChildren ch).category = e.category := by cases e; rfl

@[simp] theorem Elem.name_setChildren (e : Elem) (ch : List Elem) :
    (e.setChildren ch).name = e.name := by cases e; rfl

@[simp] theorem Elem.attrs_setChildren (e : Elem) (ch : List Elem) :
    (e.setChildren ch).attrs = e.attrs := by cases e; rfl

@[simp] theorem Elem.children_setChildren (e : Elem) (ch : List Elem) :
    (e.setChildren ch).children = ch := by cases e; rfl

@[simp] theorem Elem.setChildren_children (e : Elem) :
    e.setChildren e.children = e := by cases e; rfl

@[simp] theorem Elem.setChildren_setChildren (e : Elem) (a b : List Elem) :
    (e.setChildren a).setChildren b = e.setChildren b := by cases e; rfl

@[simp] theorem Elem.category_setAttrs (e : Elem) (a : List (String × String)) :
    (e.setAttrs a).category = e.category := by cases e; rfl

@[simp] theorem Elem.name_setAttrs (e : Elem) (a : List (String × String)) :
    (e.setAttrs a).name = e.name := by cases e; rfl

@[simp] theorem Elem.attrs_setAttrs (e : Elem) (a : List (String × String)) :
    (e.setAttrs a).attrs = a := by cases e; rfl

@[simp] theorem Elem.children_setAttrs (e : Elem) (a : List (String × String)) :
    (e.setAttrs a).children = e.children := by cases e; rfl

@[simp] theorem Elem.category_setAttribute (e : Elem) (k v : String) :
    (e.setAttribute k v).category = e.category := by
  simp [Elem.setAttribute]

@[simp] theorem Elem.name_setAttribute (e : Elem) (k v : String) :
    (e.setAttribute k v).name = e.name := by
  simp [Elem.setAttribute]

@[simp] theorem Elem.children_setAttribute (e : Elem) (k v : String) :
    (e.setAttribute k v).children = e.children := by
  simp [Elem.setAttribute]

theorem find?_setAttrList_self (l : List (String × String)) (k v : String) :
    (setAttrList l k v).find? (fun p => p.1 == k) = some (k, v) := by
  induction l with
  | nil => simp [setAttrList]
  | cons hd tl ih =>
    obtain ⟨k', v'⟩ := hd
    simp only [setAttrList]
    by_cases h : k' = k
    · subst h; simp
    · simp [List.find?_cons, h, ih]

theorem find?_setAttrList_ne (l : List (String × String)) (k k' v : String)
    (h : k' ≠ k) :
    (setAttrList l k v).find? (fun p => p.1 == k') = l.find? (fun p => p.1 == k') := by
  induction l with
  | nil => simp [setAttrList, List.find?_cons, Ne.symm h]
  | cons hd tl ih =>
    obtain ⟨k1, v1⟩ := hd
    simp only [setAttrList]
    by_cases h1 : k1 = k
    · subst h1; simp [List.find?_cons, Ne.symm h]
    · simp only [if_neg h1, List.find?_cons]
      by_cases h2 : k1 = k'
      · subst h2; simp
      · simp [h2, ih]

@[simp] theorem Elem.getAttribute_setAttribute_self (e : Elem) (k v : String) :
    (e.setAttribute k v).getAttribute k = v := by
  simp [Elem.getAttribute, Elem.setAttribute, find?_setAttrList_self]

theorem Elem.getAttribute_setAttribute_ne (e : Elem) (k k' v : String) (h : k' ≠ k) :
    (e.setAttribute k v).getAttribute k' = e.getAttribute k' := by
  simp [Elem.getAttribute, Elem.setAttribute, find?_setAttrList_ne _ _ _ _ h]

@[simp] theorem Elem.hasAttribute_setAttribute_self (e : Elem) (k v : String) :
    (e.setAttribute k v).hasAttribute k = true := by
  simp [Elem.hasAttribute, Elem.setAttribute, find?_setAttrList_self]

theorem Elem.hasAttribute_setAttribute_ne (e : Elem) (k k' v : String) (h : k' ≠ k) :
    (e.setAttribute k v).hasAttribute k' = e.hasAttribute k' := by
  simp [Elem.hasAttribute, Elem.setAttribute, find?_setAttrList_ne _ _ _ _ h]

/-! ## Lemmas about child operations -/

theorem Elem.removeChildOfType_eq_self (e : Elem) (cat n : String)
    (h : e.getChildOfType cat n = none) : e.removeChildOfType cat n = e := by
  unfold Elem.getChildOfType at h
  rw [List.find?_eq_none] at h
  unfold Elem.removeChildOfType
  rw [List.filter_eq_self.mpr, Elem.setChildren_children]
  intro a ha
  have := h a ha
  simp only [Bool.not_eq_true] at this
  simp [this]

theorem Elem.getChildOfType_removeChildOfType_self (e : Elem) (cat n : String) :
    (e.removeChildOfType cat n).getChildOfType cat n = none := by
  unfold Elem.removeChildOfType Elem.getChildOfType
  simp only [Elem.children_setChildren]
  rw [List.find?_eq_none]
  intro a ha
  rw [List.mem_filter] at ha
  have h2 := ha.2
  intro hp
  rw [hp] at h2
  simp at h2

theorem find?_append_of_none {α : Type} (p : α → Bool) (l1 l2 : List α)
    (h : l1.find? p = none) : (l1 ++ l2).find? p = l2.find? p := by
  induction l1 with
  | nil => simp
  | cons a l ih =>
    cases hpa : p a with
    | true =>
      rw [List.find?_cons_of_pos _ hpa] at h
      exact absurd h (by simp)
    | false =>
      rw [List.find?_cons_of_neg _ (by simp [hpa])] at h
      rw [List.cons_append, List.find?_cons_of_neg _ (by simp [hpa])]
      exact ih h

theorem find?_map_pred_stable {α : Type} (g : α → α) (p : α → Bool) (l : List α)
    (hp : ∀ c, p (g c) = p c) :
    (l.map g).find? p = (l.find? p).map g := by
  induction l with
  | nil => simp
  | cons a l ih =>
    simp only [List.map_cons]
    cases hpa : p a with
    | true =>
      rw [List.find?_cons_of_pos _ (by rw [hp]; exact hpa),
        List.find?_cons_of_pos _ hpa]
      rfl
    | false =>
      rw [List.find?_cons_of_neg _ (by rw [hp]; simp [hpa]),
        List.find?_cons_of_neg _ (by simp [hpa])]
      exact ih

/-! ## C8: removes of a missing name are no-ops -/

/-- C8: for every Material or ShaderRef and every name with no child of the
requested type, the five remove operations leave the element tree unchanged;
the resolution queries of this model are pure functions of the tree, so they
create and destroy nothing. -/
theorem C8_remove_missing_name_is_noop (m sr : Elem) (n : String)
    (h1 : Material.getShaderRef m n = none)
    (h2 : Material.getOverride m n = none)
    (h3 : Material.getMaterialInherit m n = none)
    (h4 : ShaderRef.getBindParam sr n = none)
    (h5 : ShaderRef.getBindInput sr n = none) :
    Material.removeShaderRef m n = m ∧
    Material.removeOverride m n = m ∧
    Material.removeMaterialInherit m n = m ∧
    ShaderRef.removeBindParam sr n = sr ∧
    ShaderRef.removeBindInput sr n = sr :=
  ⟨Elem.removeChildOfType_eq_self _ _ _ h1,
   Elem.removeChildOfType_eq_self _ _ _ h2,
   Elem.removeChildOfType_eq_self _ _ _ h3,
   Elem.removeChildOfType_eq_self _ _ _ h4,
   Elem.removeChildOfType_eq_self _ _ _ h5⟩

/-- Witness for C8 at a concrete material, shader reference and missing name. -/
theorem C8_remove_missing_name_is_noop_witness :
    Material.removeShaderRef
        (Elem.mk Material.CATEGORY "M" [] [Elem.mk ShaderRef.CATEGORY "S" [] []]) "x" =
      Elem.mk Material.CATEGORY "M" [] [Elem.mk ShaderRef.CATEGORY "S" [] []] ∧
    Material.removeOverride
        (Elem.mk Material.CATEGORY "M" [] [Elem.mk ShaderRef.CATEGORY "S" [] []]) "x" =
      Elem.mk Material.CATEGORY "M" [] [Elem.mk ShaderRef.CATEGORY "S" [] []] ∧
    Material.removeMaterialInherit
        (Elem.mk Material.CATEGORY "M" [] [Elem.mk ShaderRef.CATEGORY "S" [] []]) "x" =
      Elem.mk Material.CATEGORY "M" [] [Elem.mk ShaderRef.CATEGORY "S" [] []] ∧
    ShaderRef.removeBindParam
        (Elem.mk ShaderRef.CATEGORY "S" [] [Elem.mk BindInput.CATEGORY "b" [] []]) "x" =
      Elem.mk ShaderRef.CATEGORY "S" [] [Elem.mk BindInput.CATEGORY "b" [] []] ∧
    ShaderRef.removeBindInput
        (Elem.mk ShaderRef.CATEGORY "S" [] [Elem.mk BindInput.CATEGORY "b" [] []]) "x" =
      Elem.mk ShaderRef.CATEGORY "S" [] [Elem.mk BindInput.CATEGORY "b" [] []] :=
  C8_remove_missing_name_is_noop
    (Elem.mk Material.CATEGORY "M" [] [Elem.mk ShaderRef.CATEGORY "S" [] []])
    (Elem.mk ShaderRef.CATEGORY "S" [] [Elem.mk BindInput.CATEGORY "b" [] []])
    "x" rfl rfl rfl rfl rfl

/-! ## C10: attribute round trips -/

/-- C10: setting the nodedef (or node) string of a ShaderRef makes the has
query true and the get query return the value set; setting the node-graph or
output string of a BindInput makes the matching get query return the value
set, and leaves the other of the two attributes unchanged. -/
theorem C10_attribute_round_trips (sr bi : Elem) (s t g o : String) :
    ShaderRef.hasNodeDef (ShaderRef.setNodeDef sr s) = true ∧
    ShaderRef.getNodeDef (ShaderRef.setNodeDef sr s) = s ∧
    ShaderRef.hasNode (ShaderRef.setNode sr t) = true ∧
    ShaderRef.getNode (ShaderRef.setNode sr t) = t ∧
    BindInput.getNodeGraphString (BindInput.setNodeGraphString bi g) = g ∧
    BindInput.getOutputString (BindInput.setOutputString bi o) = o ∧
    BindInput.getOutputString (BindInput.setNodeGraphString bi g) =
      BindInput.getOutputString bi ∧
    BindInput.getNodeGraphString (BindInput.setOutputString bi o) =
      BindInput.getNodeGraphString bi ∧
    BindInput.getNodeGraphString
      (BindInput.setOutputString (BindInput.setNodeGraphString bi g) o) = g ∧
    BindInput.getOutputString
      (BindInput.setOutputString (BindInput.setNodeGraphString bi g) o) = o := by
  refine ⟨?_, ?_, ?_, ?_, ?_, ?_, ?_, ?_, ?_, ?_⟩
  · exact Elem.hasAttribute_setAttribute_self sr ShaderRef.NODE_DEF_ATTRIBUTE s
  · exact Elem.getAttribute_setAttribute_self sr ShaderRef.NODE_DEF_ATTRIBUTE s
  · exact Elem.hasAttribute_setAttribute_self sr ShaderRef.NODE_ATTRIBUTE t
  · exact Elem.getAttribute_setAttribute_self sr ShaderRef.NODE_ATTRIBUTE t
  · exact Elem.getAttribute_setAttribute_self bi BindInput.NODE_GRAPH_ATTRIBUTE g
  · exact Elem.getAttribute_setAttribute_self bi BindInput.OUTPUT_ATTRIBUTE o
  · exact Elem.getAttribute_setAttribute_ne bi _ _ g (by decide)
  · exact Elem.getAttribute_setAttribute_ne bi _ _ o (by decide)
  · have h1 : BindInput.getNodeGraphString
        (BindInput.setOutputString (BindInput.setNodeGraphString bi g) o) =
        BindInput.getNodeGraphString (BindInput.setNodeGraphString bi g) :=
      Elem.getAttribute_setAttribute_ne (BindInput.setNodeGraphString bi g)
        BindInput.OUTPUT_ATTRIBUTE BindInput.NODE_GRAPH_ATTRIBUTE o (by decide)
    rw [h1]
    exact Elem.getAttribute_setAttribute_self bi BindInput.NODE_GRAPH_ATTRIBUTE g
  · exact Elem.getAttribute_setAttribute_self _ BindInput.OUTPUT_ATTRIBUTE o

/-! ## C2: single-valued inheritance -/

theorem addChild_if_eq_some (e : Elem) (cat cname : String) (e' : Elem) (cn : String)
    (h : (if (e.children.any fun c => c.name == cname) = true then none
          else some (e.setChildren (e.children ++ [Elem.mk cat cname [] []]), cname)) =
        some (e', cn)) :
    e' = e.setChildren (e.children ++ [Elem.mk cat cn [] []]) ∧
    e.children.any (fun c => c.name == cn) = false := by
  split at h
  · exact absurd h (by simp)
  · rename_i hany
    rw [Option.some_inj] at h
    have he := congrArg Prod.fst h
    have hcn := congrArg Prod.snd h
    simp only at he hcn
    rw [hcn] at he
    refine ⟨he.symm, ?_⟩
    rw [← hcn]
    simpa using hany

theorem addChild_eq_some (e : Elem) (cat n : String) (e' : Elem) (cn : String)
    (h : e.addChild cat n = some (e', cn)) :
    e' = e.setChildren (e.children ++ [Elem.mk cat cn [] []]) ∧
    e.children.any (fun c => c.name == cn) = false := by
  simp only [Elem.addChild] at h
  split at h
  · exact addChild_if_eq_some _ _ _ _ _ h
  · exact addChild_if_eq_some _ _ _ _ _ h

theorem addChild_name_of_ne (e : Elem) (cat n : String) (e' : Elem) (cn : String)
    (hn : n ≠ "") (h : e.addChild cat n = some (e', cn)) : cn = n := by
  simp only [Elem.addChild] at h
  split at h
  · rename_i hcond; exact absurd hcond hn
  · split at h
    · exact absurd h (by simp)
    · rw [Option.some_inj] at h
      exact (congrArg Prod.snd h).symm

theorem setInheritsFrom_none_eq (m : Elem) :
    Material.setInheritsFrom m none =
      some (m.setChildren (m.children.filter
        (fun c => !(c.category == MaterialInherit.CATEGORY)))) := rfl

theorem setInheritsFrom_some_elim (m m1 : Elem) (t : String)
    (h : Material.setInheritsFrom m (some t) = some m1) :
    ∃ cn, (m.setChildren (m.children.filter
      (fun c => !(c.category == MaterialInherit.CATEGORY)))).addChild
        MaterialInherit.CATEGORY t = some (m1, cn) := by
  simp only [Material.setInheritsFrom] at h
  cases hac : (m.setChildren (m.children.filter
      (fun c => !(c.category == MaterialInherit.CATEGORY)))).addChild
        MaterialInherit.CATEGORY t with
  | none => rw [hac] at h; simp at h
  | some p =>
    obtain ⟨a, b⟩ := p
    rw [hac] at h
    have h' : a = m1 := by simpa using h
    subst h'
    exact ⟨b, rfl⟩

theorem getMaterialInherits_setChildren_append (m : Elem) (l : List Elem) (cn : String) :
    Material.getMaterialInherits (m.setChildren
      ((l.filter (fun c => !(c.category == MaterialInherit.CATEGORY))) ++
        [Elem.mk MaterialInherit.CATEGORY cn [] []])) =
      [Elem.mk MaterialInherit.CATEGORY cn [] []] := by
  unfold Material.getMaterialInherits Elem.getChildrenOfType
  simp [List.filter_append, List.filter_filter]

theorem getMaterialInherits_after_set_some (m m1 : Elem) (t : String) (ht : t ≠ "")
    (h : Material.setInheritsFrom m (some t) = some m1) :
    Material.getMaterialInherits m1 = [Elem.mk MaterialInherit.CATEGORY t [] []] := by
  obtain ⟨cn, hac⟩ := setInheritsFrom_some_elim m m1 t h
  have hcn := addChild_name_of_ne _ _ _ _ _ ht hac
  obtain ⟨he, -⟩ := addChild_eq_some _ _ _ _ _ hac
  subst hcn
  rw [he, Elem.children_setChildren, Elem.setChildren_setChildren]
  exact getMaterialInherits_setChildren_append m m.children cn

theorem getMaterialInherits_after_set_none (m m2 : Elem)
    (h : Material.setInheritsFrom m none = some m2) :
    Material.getMaterialInherits m2 = [] := by
  rw [setInheritsFrom_none_eq] at h
  injection h with h
  subst h
  unfold Material.getMaterialInherits Elem.getChildrenOfType
  simp [List.filter_filter]

theorem getMaterialInherits_length_after_set (m : Elem) (tgt : Option String)
    (m' : Elem) (h : Material.setInheritsFrom m tgt = some m') :
    (Material.getMaterialInherits m').length ≤ 1 := by
  cases tgt with
  | none => rw [getMaterialInherits_after_set_none m m' h]; simp
  | some t =>
    obtain ⟨cn, hac⟩ := setInheritsFrom_some_elim m m' t h
    obtain ⟨he, -⟩ := addChild_eq_some _ _ _ _ _ hac
    rw [he, Elem.children_setChildren, Elem.setChildren_setChildren,
      getMaterialInherits_setChildren_append m m.children cn]
    simp

/-- C2: after `setInheritsFrom` with a target material name, `getInheritsFrom`
resolves exactly that material; after `setInheritsFrom` with no target it
returns absent; and every successful `setInheritsFrom` leaves at most one
MaterialInherit child, so inheritance stays single-valued across any sequence
of calls. -/
theorem C2_setInheritsFrom_round_trip (doc m m1 m2 n : Elem) (t : String)
    (ht : t ≠ "")
    (h1 : Material.setInheritsFrom m (some t) = some m1)
    (hn : doc.getChildOfType Material.CATEGORY t = some n)
    (h2 : Material.setInheritsFrom m none = some m2) :
    Material.getInheritsFrom doc m1 = some n ∧
    Material.getInheritsFrom doc m2 = none ∧
    (∀ (m0 : Elem) (tgt : Option String) (m' : Elem),
      Material.setInheritsFrom m0 tgt = some m' →
      (Material.getMaterialInherits m').length ≤ 1) := by
  refine ⟨?_, ?_, fun m0 tgt m' h => getMaterialInherits_length_after_set m0 tgt m' h⟩
  · unfold Material.getInheritsFrom
    rw [getMaterialInherits_after_set_some m m1 t ht h1]
    simpa using hn
  · unfold Material.getInheritsFrom
    rw [getMaterialInherits_after_set_none m m2 h2]

/-- Witness for C2: a document with materials M and N; M is set to inherit
from N and then from nothing. -/
theorem C2_setInheritsFrom_round_trip_witness :
    Material.getInheritsFrom
        (Elem.mk "document" "doc" []
          [Elem.mk Material.CATEGORY "M" [] [], Elem.mk Material.CATEGORY "N" [] []])
        (Elem.mk Material.CATEGORY "M" []
          [Elem.mk MaterialInherit.CATEGORY "N" [] []]) =
      some (Elem.mk Material.CATEGORY "N" [] []) ∧
    Material.getInheritsFrom
        (Elem.mk "document" "doc" []
          [Elem.mk Material.CATEGORY "M" [] [], Elem.mk Material.CATEGORY "N" [] []])
        (Elem.mk Material.CATEGORY "M" [] []) = none ∧
    (∀ (m0 : Elem) (tgt : Option String) (m' : Elem),
      Material.setInheritsFrom m0 tgt = some m' →
      (Material.getMaterialInherits m').length ≤ 1) :=
  C2_setInheritsFrom_round_trip
    (Elem.mk "document" "doc" []
      [Elem.mk Material.CATEGORY "M" [] [], Elem.mk Material.CATEGORY "N" [] []])
    (Elem.mk Material.CATEGORY "M" [] [])
    (Elem.mk Material.CATEGORY "M" [] [Elem.mk MaterialInherit.CATEGORY "N" [] []])
    (Elem.mk Material.CATEGORY "M" [] [])
    (Elem.mk Material.CATEGORY "N" [] [])
    "N" (by decide) (by decide) (by decide) (by decide)

/-! ## C1: an inheritance cycle fails validation -/

theorem inheritChainWalk_succ (doc : Elem) (fuel : Nat) (seen : List String)
    (m next : Elem) (h : Material.getInheritsFrom doc m = some next) :
    inheritChainWalk doc (fuel + 1) seen m =
      if seen.contains next.name then false
      else inheritChainWalk doc fuel (next.name :: seen) next := by
  simp only [inheritChainWalk, h]

theorem inheritChainWalk_two_cycle (doc M N : Elem) (k : Nat) (seen : List String)
    (hMN : Material.getInheritsFrom doc M = some N)
    (hNM : Material.getInheritsFrom doc N = some M)
    (hseen : seen.contains M.name = true) :
    inheritChainWalk doc (k + 2) seen M = false := by
  rw [show k + 2 = (k + 1) + 1 from rfl,
    inheritChainWalk_succ doc (k + 1) seen M N hMN]
  cases hc : seen.contains N.name with
  | true => rw [if_pos rfl]
  | false =>
    have hmem : M.name ∈ seen := by simpa using hseen
    rw [if_neg (by simp),
      inheritChainWalk_succ doc k (N.name :: seen) N M hNM,
      if_pos (show ((N.name :: seen).contains M.name) = true by simp [hmem])]

/-- C1: for materials M and N forming the inheritance chain M to N to M, the
validation of M fails and the accumulated diagnostics mention a cycle. -/
theorem C1_inheritance_cycle_fails_validation (doc M N : Elem)
    (hM : M ∈ doc.getChildrenOfType Material.CATEGORY)
    (hMN : Material.getInheritsFrom doc M = some N)
    (hNM : Material.getInheritsFrom doc N = some M) :
    (Material.validate doc M).1 = false ∧
    (Material.validate doc M).2.any mentionsCycle = true := by
  have hpos : 0 < (doc.getChildrenOfType Material.CATEGORY).length :=
    List.length_pos.mpr (List.ne_nil_of_mem hM)
  obtain ⟨k, hk⟩ : ∃ k, (doc.getChildrenOfType Material.CATEGORY).length = k + 1 :=
    ⟨_, (Nat.succ_pred_eq_of_pos hpos).symm⟩
  have hwalk : inheritChainWalk doc
      ((doc.getChildrenOfType Material.CATEGORY).length + 1) [M.name] M = false := by
    rw [hk]
    exact inheritChainWalk_two_cycle doc M N k [M.name] hMN hNM (by simp)
  unfold Material.validate
  rw [hwalk]
  constructor
  · simp
  · rw [List.any_append]
    have : mentionsCycle "material inheritance cycle detected" = true := by decide
    simp [this]

/-- Witness for C1: a two-material document where M inherits N and N inherits
M. -/
theorem C1_inheritance_cycle_fails_validation_witness :
    (Material.validate
        (Elem.mk "document" "doc" []
          [Elem.mk Material.CATEGORY "M" [] [Elem.mk MaterialInherit.CATEGORY "N" [] []],
           Elem.mk Material.CATEGORY "N" [] [Elem.mk MaterialInherit.CATEGORY "M" [] []]])
        (Elem.mk Material.CATEGORY "M" []
          [Elem.mk MaterialInherit.CATEGORY "N" [] []])).1 = false ∧
    (Material.validate
        (Elem.mk "document" "doc" []
          [Elem.mk Material.CATEGORY "M" [] [Elem.mk MaterialInherit.CATEGORY "N" [] []],
           Elem.mk Material.CATEGORY "N" [] [Elem.mk MaterialInherit.CATEGORY "M" [] []]])
        (Elem.mk Material.CATEGORY "M" []
          [Elem.mk MaterialInherit.CATEGORY "N" [] []])).2.any mentionsCycle = true :=
  C1_inheritance_cycle_fails_validation
    (Elem.mk "document" "doc" []
      [Elem.mk Material.CATEGORY "M" [] [Elem.mk MaterialInherit.CATEGORY "N" [] []],
       Elem.mk Material.CATEGORY "N" [] [Elem.mk MaterialInherit.CATEGORY "M" [] []]])
    (Elem.mk Material.CATEGORY "M" [] [Elem.mk MaterialInherit.CATEGORY "N" [] []])
    (Elem.mk Material.CATEGORY "N" [] [Elem.mk MaterialInherit.CATEGORY "M" [] []])
    (by decide) (by decide) (by decide)

/-! ## C3: a dangling nodedef reference is lenient at query time, strict at
validation time -/

theorem isEmpty_false_of_mem {α : Type} (l : List α) (a : α) (h : a ∈ l) :
    l.isEmpty = false := by
  cases l with
  | nil => cases h
  | cons b t => rfl

theorem validate_false_of_sr_finding (doc m sr : Elem)
    (hmem : sr ∈ Material.getShaderRefs m)
    (hcond : (ShaderRef.hasNodeDef sr &&
      (doc.getChildOfType NodeDef.CATEGORY (ShaderRef.getNodeDef sr)).isNone) = true) :
    (Material.validate doc m).1 = false := by
  unfold Material.validate
  apply isEmpty_false_of_mem _
    ("shaderref " ++ sr.name ++ " references a nodedef that does not exist")
  apply List.mem_append_left
  apply List.mem_append_left
  apply List.mem_filterMap.mpr
  exact ⟨sr, hmem, by simp [hcond]⟩

/-- C3: a ShaderRef whose node-definition name is set to a name with no
matching NodeDef resolves to absent without error, while validation of the
owning material returns failure. -/
theorem C3_dangling_nodedef_resolution (doc m sr : Elem)
    (hmem : sr ∈ Material.getShaderRefs m)
    (hnd : ShaderRef.hasNodeDef sr = true)
    (hmiss : doc.getChildOfType NodeDef.CATEGORY (ShaderRef.getNodeDef sr) = none) :
    ShaderRef.getReferencedShaderDef doc sr = none ∧
    (Material.validate doc m).1 = false := by
  constructor
  · unfold ShaderRef.getReferencedShaderDef
    rw [if_pos hnd]
    exact hmiss
  · exact validate_false_of_sr_finding doc m sr hmem (by simp [hnd, hmiss])

/-- Witness for C3: a material with one ShaderRef naming a NodeDef that the
document does not contain. -/
theorem C3_dangling_nodedef_resolution_witness :
    ShaderRef.getReferencedShaderDef
        (Elem.mk "document" "doc" []
          [Elem.mk Material.CATEGORY "M" []
            [Elem.mk ShaderRef.CATEGORY "SR" [("nodedef", "missing")] []]])
        (Elem.mk ShaderRef.CATEGORY "SR" [("nodedef", "missing")] []) = none ∧
    (Material.validate
        (Elem.mk "document" "doc" []
          [Elem.mk Material.CATEGORY "M" []
            [Elem.mk ShaderRef.CATEGORY "SR" [("nodedef", "missing")] []]])
        (Elem.mk Material.CATEGORY "M" []
          [Elem.mk ShaderRef.CATEGORY "SR" [("nodedef", "missing")] []])).1 = false :=
  C3_dangling_nodedef_resolution
    (Elem.mk "document" "doc" []
      [Elem.mk Material.CATEGORY "M" []
        [Elem.mk ShaderRef.CATEGORY "SR" [("nodedef", "missing")] []]])
    (Elem.mk Material.CATEGORY "M" []
      [Elem.mk ShaderRef.CATEGORY "SR" [("nodedef", "missing")] []])
    (Elem.mk ShaderRef.CATEGORY "SR" [("nodedef", "missing")] [])
    (by decide) (by decide) (by decide)

/-! ## C4: two-stage output resolution -/

/-- C4: when a NodeGraph named G containing an Output named O exists, a
BindInput recording the pair (G, O) resolves to exactly that Output; after the
NodeGraph is removed the resolution returns absent; absence at either lookup
stage yields absent; and an empty graph name means the document root. -/
theorem C4_two_stage_output_resolution (doc ng out bi : Elem) (g o : String)
    (hg : BindInput.getNodeGraphString bi = g)
    (ho : BindInput.getOutputString bi = o)
    (hgne : g ≠ "")
    (hng : doc.getChildOfType NodeGraph.CATEGORY g = some ng)
    (hout : ng.getChildOfType Output.CATEGORY o = some out) :
    BindInput.getConnectedOutput doc bi = some out ∧
    BindInput.getConnectedOutput (doc.removeChildOfType NodeGraph.CATEGORY g) bi = none ∧
    (∀ doc2 : Elem, doc2.getChildOfType NodeGraph.CATEGORY g = none →
      BindInput.getConnectedOutput doc2 bi = none) ∧
    (∀ doc2 ng2 : Elem, doc2.getChildOfType NodeGraph.CATEGORY g = some ng2 →
      ng2.getChildOfType Output.CATEGORY o = none →
      BindInput.getConnectedOutput doc2 bi = none) ∧
    (∀ doc3 bi2 : Elem, BindInput.getNodeGraphString bi2 = "" →
      BindInput.getConnectedOutput doc3 bi2 =
        doc3.getChildOfType Output.CATEGORY (BindInput.getOutputString bi2)) := by
  subst hg
  subst ho
  refine ⟨?_, ?_, ?_, ?_, ?_⟩
  · unfold BindInput.getConnectedOutput
    rw [if_neg hgne, hng]
    exact hout
  · unfold BindInput.getConnectedOutput
    rw [if_neg hgne, Elem.getChildOfType_removeChildOfType_self]
  · intro doc2 hnone
    unfold BindInput.getConnectedOutput
    rw [if_neg hgne, hnone]
  · intro doc2 ng2 hsome hnone
    unfold BindInput.getConnectedOutput
    rw [if_neg hgne, hsome]
    exact hnone
  · intro doc3 bi2 hempty
    unfold BindInput.getConnectedOutput
    rw [if_pos hempty]

/-- Witness for C4: a BindInput naming the pair (G, o1) against a document
holding a NodeGraph G with an Output o1. -/
theorem C4_two_stage_output_resolution_witness :
    BindInput.getConnectedOutput
        (Elem.mk "document" "d" []
          [Elem.mk NodeGraph.CATEGORY "G" [] [Elem.mk Output.CATEGORY "o1" [] []]])
        (Elem.mk BindInput.CATEGORY "b" [("nodegraph", "G"), ("output", "o1")] []) =
      some (Elem.mk Output.CATEGORY "o1" [] []) ∧
    BindInput.getConnectedOutput
        ((Elem.mk "document" "d" []
          [Elem.mk NodeGraph.CATEGORY "G" [] [Elem.mk Output.CATEGORY "o1" [] []]]).removeChildOfType
            NodeGraph.CATEGORY "G")
        (Elem.mk BindInput.CATEGORY "b" [("nodegraph", "G"), ("output", "o1")] []) = none ∧
    (∀ doc2 : Elem, doc2.getChildOfType NodeGraph.CATEGORY "G" = none →
      BindInput.getConnectedOutput doc2
        (Elem.mk BindInput.CATEGORY "b" [("nodegraph", "G"), ("output", "o1")] []) = none) ∧
    (∀ doc2 ng2 : Elem, doc2.getChildOfType NodeGraph.CATEGORY "G" = some ng2 →
      ng2.getChildOfType Output.CATEGORY "o1" = none →
      BindInput.getConnectedOutput doc2
        (Elem.mk BindInput.CATEGORY "b" [("nodegraph", "G"), ("output", "o1")] []) = none) ∧
    (∀ doc3 bi2 : Elem, BindInput.getNodeGraphString bi2 = "" →
      BindInput.getConnectedOutput doc3 bi2 =
        doc3.getChildOfType Output.CATEGORY (BindInput.getOutputString bi2)) :=
  C4_two_stage_output_resolution
    (Elem.mk "document" "d" []
      [Elem.mk NodeGraph.CATEGORY "G" [] [Elem.mk Output.CATEGORY "o1" [] []]])
    (Elem.mk NodeGraph.CATEGORY "G" [] [Elem.mk Output.CATEGORY "o1" [] []])
    (Elem.mk Output.CATEGORY "o1" [] [])
    (Elem.mk BindInput.CATEGORY "b" [("nodegraph", "G"), ("output", "o1")] [])
    "G" "o1" (by decide) (by decide) (by decide) (by decide) (by decide)

/-! ## C5: referenced outputs are collected as a set -/

theorem mem_outputsFold (doc : Elem) (l : List Elem) (acc : List Elem) (x : Elem) :
    x ∈ l.foldl (fun acc bi =>
      match BindInput.getConnectedOutput doc bi with
      | some o => if acc.contains o then acc else acc ++ [o]
      | none => acc) acc ↔
    x ∈ acc ∨ ∃ bi, bi ∈ l ∧ BindInput.getConnectedOutput doc bi = some x := by
  induction l generalizing acc with
  | nil => simp
  | cons hd tl ih =>
    simp only [List.foldl_cons]
    rw [ih]
    cases hco : BindInput.getConnectedOutput doc hd with
    | none =>
      constructor
      · rintro (hx | ⟨bi, hbi, hp⟩)
        · exact Or.inl hx
        · exact Or.inr ⟨bi, List.mem_cons_of_mem _ hbi, hp⟩
      · rintro (hx | ⟨bi, hbi, hp⟩)
        · exact Or.inl hx
        · rcases List.mem_cons.mp hbi with rfl | hbi2
          · rw [hco] at hp; cases hp
          · exact Or.inr ⟨bi, hbi2, hp⟩
    | some o =>
      simp only []
      by_cases hc : acc.contains o = true
      · rw [if_pos hc]
        constructor
        · rintro (hx | ⟨bi, hbi, hp⟩)
          · exact Or.inl hx
          · exact Or.inr ⟨bi, List.mem_cons_of_mem _ hbi, hp⟩
        · rintro (hx | ⟨bi, hbi, hp⟩)
          · exact Or.inl hx
          · rcases List.mem_cons.mp hbi with rfl | hbi2
            · rw [hco] at hp
              have ho : o = x := Option.some.inj hp
              subst ho
              exact Or.inl (by simpa using hc)
            · exact Or.inr ⟨bi, hbi2, hp⟩
      · rw [if_neg hc]
        constructor
        · rintro (hx | ⟨bi, hbi, hp⟩)
          · rcases List.mem_append.mp hx with hx2 | hx2
            · exact Or.inl hx2
            · have hxo : x = o := by simpa using hx2
              subst hxo
              exact Or.inr ⟨hd, List.mem_cons_self hd tl, hco⟩
          · exact Or.inr ⟨bi, List.mem_cons_of_mem _ hbi, hp⟩
        · rintro (hx | ⟨bi, hbi, hp⟩)
          · exact Or.inl (List.mem_append_left _ hx)
          · rcases List.mem_cons.mp hbi with rfl | hbi2
            · rw [hco] at hp
              have ho : o = x := Option.some.inj hp
              subst ho
              exact Or.inl (List.mem_append_right _ (by simp))
            · exact Or.inr ⟨bi, hbi2, hp⟩

theorem nodup_outputsFold (doc : Elem) (l : List Elem) (acc : List Elem)
    (hacc : acc.Nodup) :
    (l.foldl (fun acc bi =>
      match BindInput.getConnectedOutput doc bi with
      | some o => if acc.contains o then acc else acc ++ [o]
      | none => acc) acc).Nodup := by
  induction l generalizing acc with
  | nil => simpa
  | cons hd tl ih =>
    simp only [List.foldl_cons]
    apply ih
    cases hco : BindInput.getConnectedOutput doc hd with
    | none => exact hacc
    | some o =>
      simp only []
      by_cases hc : acc.contains o = true
      · rw [if_pos hc]; exact hacc
      · rw [if_neg hc]
        have ho : o ∉ acc := by simpa using hc
        simp [List.nodup_append, hacc, ho]

/-- C5: getReferencedOutputs collects, over all BindInput children, exactly
the outputs their connected-output resolution yields, without duplicates;
with three BindInputs of which two resolve to the same Output and one is
unresolved, the collection is that single Output. -/
theorem C5_referenced_outputs_dedup (doc sr b1 b2 b3 o : Elem)
    (hbi : ShaderRef.getBindInputs sr = [b1, b2, b3])
    (h1 : BindInput.getConnectedOutput doc b1 = some o)
    (h2 : BindInput.getConnectedOutput doc b2 = some o)
    (h3 : BindInput.getConnectedOutput doc b3 = none) :
    (∀ sr2 x : Elem, x ∈ ShaderRef.getReferencedOutputs doc sr2 ↔
      ∃ bi, bi ∈ ShaderRef.getBindInputs sr2 ∧
        BindInput.getConnectedOutput doc bi = some x) ∧
    (∀ sr2 : Elem, (ShaderRef.getReferencedOutputs doc sr2).Nodup) ∧
    ShaderRef.getReferencedOutputs doc sr = [o] ∧
    (ShaderRef.getReferencedOutputs doc sr).length = 1 := by
  have hconc : ShaderRef.getReferencedOutputs doc sr = [o] := by
    unfold ShaderRef.getReferencedOutputs
    rw [hbi]
    simp [List.foldl_cons, List.foldl_nil, h1, h2, h3]
  refine ⟨?_, ?_, hconc, by rw [hconc]; rfl⟩
  · intro sr2 x
    unfold ShaderRef.getReferencedOutputs
    rw [mem_outputsFold]
    simp
  · intro sr2
    unfold ShaderRef.getReferencedOutputs
    exact nodup_outputsFold doc _ [] (by simp)

/-- Witness for C5: a ShaderRef with three BindInputs, two naming the same
existing Output and one naming a missing Output. -/
theorem C5_referenced_outputs_dedup_witness :
    (∀ sr2 x : Elem, x ∈ ShaderRef.getReferencedOutputs
        (Elem.mk "document" "d" []
          [Elem.mk NodeGraph.CATEGORY "G" [] [Elem.mk Output.CATEGORY "o1" [] []]]) sr2 ↔
      ∃ bi, bi ∈ ShaderRef.getBindInputs sr2 ∧
        BindInput.getConnectedOutput
          (Elem.mk "document" "d" []
            [Elem.mk NodeGraph.CATEGORY "G" [] [Elem.mk Output.CATEGORY "o1" [] []]]) bi =
          some x) ∧
    (∀ sr2 : Elem, (ShaderRef.getReferencedOutputs
        (Elem.mk "document" "d" []
          [Elem.mk NodeGraph.CATEGORY "G" [] [Elem.mk Output.CATEGORY "o1" [] []]]) sr2).Nodup) ∧
    ShaderRef.getReferencedOutputs
        (Elem.mk "document" "d" []
          [Elem.mk NodeGraph.CATEGORY "G" [] [Elem.mk Output.CATEGORY "o1" [] []]])
        (Elem.mk ShaderRef.CATEGORY "SR" []
          [Elem.mk BindInput.CATEGORY "b1" [("nodegraph", "G"), ("output", "o1")] [],
           Elem.mk BindInput.CATEGORY "b2" [("nodegraph", "G"), ("output", "o1")] [],
           Elem.mk BindInput.CATEGORY "b3" [("nodegraph", "G"), ("output", "nope")] []]) =
      [Elem.mk Output.CATEGORY "o1" [] []] ∧
    (ShaderRef.getReferencedOutputs
        (Elem.mk "document" "d" []
          [Elem.mk NodeGraph.CATEGORY "G" [] [Elem.mk Output.CATEGORY "o1" [] []]])
        (Elem.mk ShaderRef.CATEGORY "SR" []
          [Elem.mk BindInput.CATEGORY "b1" [("nodegraph", "G"), ("output", "o1")] [],
           Elem.mk BindInput.CATEGORY "b2" [("nodegraph", "G"), ("output", "o1")] [],
           Elem.mk BindInput.CATEGORY "b3" [("nodegraph", "G"), ("output", "nope")] []])).length =
      1 :=
  C5_referenced_outputs_dedup
    (Elem.mk "document" "d" []
      [Elem.mk NodeGraph.CATEGORY "G" [] [Elem.mk Output.CATEGORY "o1" [] []]])
    (Elem.mk ShaderRef.CATEGORY "SR" []
      [Elem.mk BindInput.CATEGORY "b1" [("nodegraph", "G"), ("output", "o1")] [],
       Elem.mk BindInput.CATEGORY "b2" [("nodegraph", "G"), ("output", "o1")] [],
       Elem.mk BindInput.CATEGORY "b3" [("nodegraph", "G"), ("output", "nope")] []])
    (Elem.mk BindInput.CATEGORY "b1" [("nodegraph", "G"), ("output", "o1")] [])
    (Elem.mk BindInput.CATEGORY "b2" [("nodegraph", "G"), ("output", "o1")] [])
    (Elem.mk BindInput.CATEGORY "b3" [("nodegraph", "G"), ("output", "nope")] [])
    (Elem.mk Output.CATEGORY "o1" [] [])
    (by decide) (by decide) (by decide) (by decide)

/-! ## C6: referenced shader definitions, in order, skipping and keeping
duplicates -/

theorem shaderDefsFold_eq (doc : Elem) (l : List Elem) (acc : List Elem) :
    l.foldl (fun acc sr =>
      match ShaderRef.getReferencedShaderDef doc sr with
      | some nd => acc ++ [nd]
      | none => acc) acc =
    acc ++ l.filterMap (fun sr => ShaderRef.getReferencedShaderDef doc sr) := by
  induction l generalizing acc with
  | nil => simp
  | cons hd tl ih =>
    simp only [List.foldl_cons, List.filterMap_cons]
    cases hco : ShaderRef.getReferencedShaderDef doc hd with
    | none => simp only []; rw [ih]
    | some nd => simp only []; rw [ih]; simp

/-- C6: getReferencedShaderDefs returns, in ShaderRef child insertion order,
the resolutions of the children's shader definitions, skipping the ShaderRefs
that do not resolve; for a ShaderRef whose node-definition name is set, the
resolution is the document-wide lookup of that name; two ShaderRefs resolving
to the same NodeDef contribute it twice. -/
theorem C6_referenced_shader_defs (doc m s1 s2 nd : Elem)
    (hsr : Material.getShaderRefs m = [s1, s2])
    (hr1 : ShaderRef.getReferencedShaderDef doc s1 = some nd)
    (hr2 : ShaderRef.getReferencedShaderDef doc s2 = some nd) :
    (∀ m2 : Elem, Material.getReferencedShaderDefs doc m2 =
      (Material.getShaderRefs m2).filterMap
        (fun sr => ShaderRef.getReferencedShaderDef doc sr)) ∧
    (∀ sr : Elem, ShaderRef.hasNodeDef sr = true →
      ShaderRef.getReferencedShaderDef doc sr =
        doc.getChildOfType NodeDef.CATEGORY (ShaderRef.getNodeDef sr)) ∧
    Material.getReferencedShaderDefs doc m = [nd, nd] := by
  refine ⟨?_, ?_, ?_⟩
  · intro m2
    unfold Material.getReferencedShaderDefs
    rw [shaderDefsFold_eq]
    simp
  · intro sr hnd
    unfold ShaderRef.getReferencedShaderDef
    rw [if_pos hnd]
  · unfold Material.getReferencedShaderDefs
    rw [hsr]
    simp [List.foldl_cons, hr1, hr2]

/-- Witness for C6: a material with two ShaderRefs naming the same NodeDef. -/
theorem C6_referenced_shader_defs_witness :
    (∀ m2 : Elem, Material.getReferencedShaderDefs
        (Elem.mk "document" "d" [] [Elem.mk NodeDef.CATEGORY "ND" [] []]) m2 =
      (Material.getShaderRefs m2).filterMap
        (fun sr => ShaderRef.getReferencedShaderDef
          (Elem.mk "document" "d" [] [Elem.mk NodeDef.CATEGORY "ND" [] []]) sr)) ∧
    (∀ sr : Elem, ShaderRef.hasNodeDef sr = true →
      ShaderRef.getReferencedShaderDef
          (Elem.mk "document" "d" [] [Elem.mk NodeDef.CATEGORY "ND" [] []]) sr =
        (Elem.mk "document" "d" [] [Elem.mk NodeDef.CATEGORY "ND" [] []]).getChildOfType
          NodeDef.CATEGORY (ShaderRef.getNodeDef sr)) ∧
    Material.getReferencedShaderDefs
        (Elem.mk "document" "d" [] [Elem.mk NodeDef.CATEGORY "ND" [] []])
        (Elem.mk Material.CATEGORY "M" []
          [Elem.mk ShaderRef.CATEGORY "S1" [("nodedef", "ND")] [],
           Elem.mk ShaderRef.CATEGORY "S2" [("nodedef", "ND")] []]) =
      [Elem.mk NodeDef.CATEGORY "ND" [] [], Elem.mk NodeDef.CATEGORY "ND" [] []] :=
  C6_referenced_shader_defs
    (Elem.mk "document" "d" [] [Elem.mk NodeDef.CATEGORY "ND" [] []])
    (Elem.mk Material.CATEGORY "M" []
      [Elem.mk ShaderRef.CATEGORY "S1" [("nodedef", "ND")] [],
       Elem.mk ShaderRef.CATEGORY "S2" [("nodedef", "ND")] []])
    (Elem.mk ShaderRef.CATEGORY "S1" [("nodedef", "ND")] [])
    (Elem.mk ShaderRef.CATEGORY "S2" [("nodedef", "ND")] [])
    (Elem.mk NodeDef.CATEGORY "ND" [] [])
    (by decide) (by decide) (by decide)

/-! ## C7: receiver resolution by the Override's own name -/

theorem findSome?_some_mem {α β : Type} (f : α → Option β) (l : List α) (b : β)
    (h : l.findSome? f = some b) : ∃ a, a ∈ l ∧ f a = some b := by
  induction l with
  | nil => simp at h
  | cons hd tl ih =>
    rw [List.findSome?_cons] at h
    cases hf : f hd with
    | some c =>
      simp only [hf, Option.some.injEq] at h
      subst h
      exact ⟨hd, List.mem_cons_self hd tl, hf⟩
    | none =>
      simp only [hf] at h
      obtain ⟨a, ha, hfa⟩ := ih h
      exact ⟨a, List.mem_cons_of_mem _ ha, hfa⟩

theorem findSome?_none_iff {α β : Type} (f : α → Option β) (l : List α) :
    l.findSome? f = none ↔ ∀ a, a ∈ l → f a = none := by
  induction l with
  | nil => simp
  | cons hd tl ih =>
    rw [List.findSome?_cons]
    cases hf : f hd with
    | some c =>
      simp only []
      constructor
      · intro h; cases h
      · intro h
        have := h hd (List.mem_cons_self hd tl)
        rw [hf] at this
        cases this
    | none =>
      simp only []
      rw [ih]
      constructor
      · intro h a ha
        rcases List.mem_cons.mp ha with rfl | ha2
        · exact hf
        · exact h a ha2
      · intro h a ha
        exact h a (List.mem_cons_of_mem _ ha)

theorem findSome?_cons_of_some {α β : Type} (f : α → Option β) (a : α)
    (l : List α) (b : β) (h : f a = some b) : (a :: l).findSome? f = some b := by
  rw [List.findSome?_cons, h]

theorem findSettable_eq_none_iff (nd : Elem) (n : String) :
    findSettable nd n = none ↔ ∀ c, c ∈ nd.children →
      (c.category = Parameter.CATEGORY ∨ c.category = Input.CATEGORY) →
      c.name ≠ n := by
  unfold findSettable
  rw [List.find?_eq_none]
  constructor
  · intro h c hc hcat hname
    apply h c hc
    simp only [Bool.and_eq_true, Bool.or_eq_true, beq_iff_eq]
    exact ⟨hcat, hname⟩
  · intro h c hc hp
    simp only [Bool.and_eq_true, Bool.or_eq_true, beq_iff_eq] at hp
    exact h c hc hp.1 hp.2

theorem findSettable_some (nd : Elem) (n : String) (r : Elem)
    (h : findSettable nd n = some r) :
    r ∈ nd.children ∧
    (r.category = Parameter.CATEGORY ∨ r.category = Input.CATEGORY) ∧
    r.name = n := by
  unfold findSettable at h
  have hmem := List.mem_of_find?_eq_some h
  have hp := List.find?_some h
  simp only [Bool.and_eq_true, Bool.or_eq_true, beq_iff_eq] at hp
  exact ⟨hmem, hp.1, hp.2⟩

/-- C7: getReceiver scans the Parameters and Inputs of the resolved NodeDefs
for the first element whose name equals the Override's own name — it depends
only on the Override's name and on nothing stored in its attributes, it
returns a settable element of a referenced NodeDef carrying that name whenever
it returns at all, and it returns absent exactly when no name matches. -/
theorem C7_receiver_resolution (doc mat ov : Elem) :
    (∀ ov2 : Elem, ov2.name = ov.name →
      Override.getReceiver doc mat ov2 = Override.getReceiver doc mat ov) ∧
    (∀ r : Elem, Override.getReceiver doc mat ov = some r →
      r.name = ov.name ∧
      (r.category = Parameter.CATEGORY ∨ r.category = Input.CATEGORY) ∧
      ∃ nd, nd ∈ Material.getReferencedShaderDefs doc mat ∧ r ∈ nd.children) ∧
    (Override.getReceiver doc mat ov = none ↔
      ∀ nd, nd ∈ Material.getReferencedShaderDefs doc mat →
        ∀ c, c ∈ nd.children →
          (c.category = Parameter.CATEGORY ∨ c.category = Input.CATEGORY) →
          c.name ≠ ov.name) ∧
    (∀ (nd1 : Elem) (rest : List Elem) (r : Elem),
      Material.getReferencedShaderDefs doc mat = nd1 :: rest →
      findSettable nd1 ov.name = some r →
      Override.getReceiver doc mat ov = some r) := by
  refine ⟨?_, ?_, ?_, ?_⟩
  · intro ov2 hname
    unfold Override.getReceiver
    rw [hname]
  · intro r hr
    unfold Override.getReceiver at hr
    obtain ⟨nd, hnd, hf⟩ := findSome?_some_mem _ _ _ hr
    obtain ⟨hmem, hcat, hname⟩ := findSettable_some nd ov.name r hf
    exact ⟨hname, hcat, nd, hnd, hmem⟩
  · unfold Override.getReceiver
    rw [findSome?_none_iff]
    constructor
    · intro h nd hnd c hc hcat hname
      exact (findSettable_eq_none_iff nd ov.name).mp (h nd hnd) c hc hcat hname
    · intro h nd hnd
      exact (findSettable_eq_none_iff nd ov.name).mpr
        (fun c hc hcat => h nd hnd c hc hcat)
  · intro nd1 rest r hdefs hf
    unfold Override.getReceiver
    rw [hdefs]
    exact findSome?_cons_of_some _ _ _ _ hf

/-- Witness for C7: an Override named roughness resolves to the Input of the
referenced NodeDef carrying the same name, and an Override named roughness_x
resolves to nothing. -/
theorem C7_receiver_resolution_witness :
    Override.getReceiver
        (Elem.mk "document" "d" []
          [Elem.mk Material.CATEGORY "M1" []
            [Elem.mk ShaderRef.CATEGORY "SR1" [("nodedef", "ND_plastic")] [],
             Elem.mk Override.CATEGORY "roughness" [] []],
           Elem.mk NodeDef.CATEGORY "ND_plastic" []
            [Elem.mk Input.CATEGORY "roughness" [] []]])
        (Elem.mk Material.CATEGORY "M1" []
          [Elem.mk ShaderRef.CATEGORY "SR1" [("nodedef", "ND_plastic")] [],
           Elem.mk Override.CATEGORY "roughness" [] []])
        (Elem.mk Override.CATEGORY "roughness" [] []) =
      some (Elem.mk Input.CATEGORY "roughness" [] []) ∧
    Override.getReceiver
        (Elem.mk "document" "d" []
          [Elem.mk Material.CATEGORY "M1" []
            [Elem.mk ShaderRef.CATEGORY "SR1" [("nodedef", "ND_plastic")] [],
             Elem.mk Override.CATEGORY "roughness" [] []],
           Elem.mk NodeDef.CATEGORY "ND_plastic" []
            [Elem.mk Input.CATEGORY "roughness" [] []]])
        (Elem.mk Material.CATEGORY "M1" []
          [Elem.mk ShaderRef.CATEGORY "SR1" [("nodedef", "ND_plastic")] [],
           Elem.mk Override.CATEGORY "roughness" [] []])
        (Elem.mk Override.CATEGORY "roughness_x" [] []) = none :=
  ⟨(C7_receiver_resolution
      (Elem.mk "document" "d" []
        [Elem.mk Material.CATEGORY "M1" []
          [Elem.mk ShaderRef.CATEGORY "SR1" [("nodedef", "ND_plastic")] [],
           Elem.mk Override.CATEGORY "roughness" [] []],
         Elem.mk NodeDef.CATEGORY "ND_plastic" []
          [Elem.mk Input.CATEGORY "roughness" [] []]])
      (Elem.mk Material.CATEGORY "M1" []
        [Elem.mk ShaderRef.CATEGORY "SR1" [("nodedef", "ND_plastic")] [],
         Elem.mk Override.CATEGORY "roughness" [] []])
      (Elem.mk Override.CATEGORY "roughness" [] [])).2.2.2
    (Elem.mk NodeDef.CATEGORY "ND_plastic" []
      [Elem.mk Input.CATEGORY "roughness" [] []])
    [] (Elem.mk Input.CATEGORY "roughness" [] []) (by decide) (by decide),
   (C7_receiver_resolution
      (Elem.mk "document" "d" []
        [Elem.mk Material.CATEGORY "M1" []
          [Elem.mk ShaderRef.CATEGORY "SR1" [("nodedef", "ND_plastic")] [],
           Elem.mk Override.CATEGORY "roughness" [] []],
         Elem.mk NodeDef.CATEGORY "ND_plastic" []
          [Elem.mk Input.CATEGORY "roughness" [] []]])
      (Elem.mk Material.CATEGORY "M1" []
        [Elem.mk ShaderRef.CATEGORY "SR1" [("nodedef", "ND_plastic")] [],
         Elem.mk Override.CATEGORY "roughness" [] []])
      (Elem.mk Override.CATEGORY "roughness_x" [] [])).2.2.1.mpr (by decide)⟩

/-! ## C9: setOverrideValue creates once and then updates in place -/

@[simp] theorem ValueElement.category_setValue (e : Elem) (v ty : String) :
    (ValueElement.setValue e v ty).category = e.category := by
  simp [ValueElement.setValue]

@[simp] theorem ValueElement.name_setValue (e : Elem) (v ty : String) :
    (ValueElement.setValue e v ty).name = e.name := by
  simp [ValueElement.setValue]

theorem ValueElement.getAttribute_value_setValue (e : Elem) (v ty : String) :
    (ValueElement.setValue e v ty).getAttribute "value" = v := by
  unfold ValueElement.setValue
  rw [Elem.getAttribute_setAttribute_ne _ _ _ _ (by decide)]
  exact Elem.getAttribute_setAttribute_self e "value" v

theorem pred_stable_of_preserves (cat n : String) (f : Elem → Elem)
    (hf : ∀ c : Elem, (f c).category = c.category ∧ (f c).name = c.name) (c : Elem) :
    ((if c.category == cat && c.name == n then f c else c).category == cat &&
     (if c.category == cat && c.name == n then f c else c).name == n) =
    (c.category == cat && c.name == n) := by
  by_cases hp : (c.category == cat && c.name == n) = true
  · rw [if_pos hp, (hf c).1, (hf c).2]
  · rw [if_neg hp]

theorem filter_map_pred_stable {α : Type} (g : α → α) (p : α → Bool) (l : List α)
    (hp : ∀ c, p (g c) = p c) :
    (l.map g).filter p = (l.filter p).map g := by
  induction l with
  | nil => rfl
  | cons a l ih =>
    simp only [List.map_cons, List.filter_cons, hp]
    cases hpa : p a with
    | true => simp [hpa, ih]
    | false => simp [hpa, ih]

theorem modify_map_id (cat n : String) (f : Elem → Elem) (l : List Elem)
    (h : ∀ c ∈ l, (c.category == cat && c.name == n) = false) :
    l.map (fun c => if c.category == cat && c.name == n then f c else c) = l := by
  have hcong : ∀ c ∈ l,
      (if c.category == cat && c.name == n then f c else c) = c := by
    intro c hc
    rw [if_neg (by simp [h c hc])]
  calc l.map (fun c => if c.category == cat && c.name == n then f c else c)
      = l.map id := List.map_congr_left hcong
    _ = l := List.map_id l

theorem modifyChildOfType_children_eq (e : Elem) (cat n : String) (f : Elem → Elem) :
    (e.modifyChildOfType cat n f).children =
      e.children.map (fun c => if c.category == cat && c.name == n then f c else c) := by
  unfold Elem.modifyChildOfType
  simp

theorem getChildOfType_modify_self (e : Elem) (cat n : String) (f : Elem → Elem)
    (hf : ∀ c : Elem, (f c).category = c.category ∧ (f c).name = c.name) :
    (e.modifyChildOfType cat n f).getChildOfType cat n =
      (e.getChildOfType cat n).map f := by
  unfold Elem.modifyChildOfType Elem.getChildOfType
  simp only [Elem.children_setChildren]
  rw [find?_map_pred_stable _ _ _ (pred_stable_of_preserves cat n f hf)]
  cases hfind : e.children.find? (fun c => c.category == cat && c.name == n) with
  | none => rfl
  | some c0 =>
    have hp := List.find?_some hfind
    show some (if c0.category == cat && c0.name == n then f c0 else c0) = some (f c0)
    rw [if_pos hp]

theorem filter_children_modify (e : Elem) (cat n : String) (f : Elem → Elem)
    (hf : ∀ c : Elem, (f c).category = c.category ∧ (f c).name = c.name) :
    ((e.modifyChildOfType cat n f).children.filter
      (fun c => c.category == cat && c.name == n)).length =
    (e.children.filter (fun c => c.category == cat && c.name == n)).length := by
  rw [modifyChildOfType_children_eq,
    filter_map_pred_stable _ _ _ (pred_stable_of_preserves cat n f hf),
    List.length_map]

theorem no_child_pred_of_getChild_none (e : Elem) (cat n : String)
    (hex : e.getChildOfType cat n = none) :
    ∀ c ∈ e.children, (c.category == cat && c.name == n) = false := by
  unfold Elem.getChildOfType at hex
  rw [List.find?_eq_none] at hex
  intro c hc
  cases hpc : (c.category == cat && c.name == n) with
  | true => exact absurd hpc (hex c hc)
  | false => rfl

theorem no_name_of_only_override (m : Elem) (n : String)
    (hcat : ∀ c ∈ m.children, c.name = n → c.category = Override.CATEGORY)
    (hex : m.getChildOfType Override.CATEGORY n = none) :
    ∀ c ∈ m.children, (c.name == n) = false := by
  intro c hc
  cases hname : (c.name == n) with
  | false => rfl
  | true =>
    have hn : c.name = n := by simpa using hname
    have hcatc := hcat c hc hn
    have hp := no_child_pred_of_getChild_none m Override.CATEGORY n hex c hc
    rw [hcatc, hn] at hp
    simp at hp

theorem addChild_success (e : Elem) (cat n : String) (hn : n ≠ "")
    (h : e.children.any (fun c => c.name == n) = false) :
    e.addChild cat n =
      some (e.setChildren (e.children ++ [Elem.mk cat n [] []]), n) := by
  simp only [Elem.addChild, if_neg hn, h]
  simp

theorem setOverrideValue_existing (m c0 : Elem) (n v ty : String)
    (hex : m.getChildOfType Override.CATEGORY n = some c0) :
    Material.setOverrideValue m n v ty =
      some (m.modifyChildOfType Override.CATEGORY n
        (fun c => ValueElement.setValue c v ty), n) := by
  unfold Material.setOverrideValue
  rw [hex]

theorem setOverrideValue_new (m : Elem) (n v ty : String) (hn : n ≠ "")
    (hex : m.getChildOfType Override.CATEGORY n = none)
    (hno : m.children.any (fun c => c.name == n) = false) :
    Material.setOverrideValue m n v ty =
      some ((m.setChildren
          (m.children ++ [Elem.mk Override.CATEGORY n [] []])).modifyChildOfType
        Override.CATEGORY n (fun c => ValueElement.setValue c v ty), n) := by
  unfold Material.setOverrideValue
  rw [hex, addChild_success m Override.CATEGORY n hn hno]

theorem map_modify_append (cat n : String) (f : Elem → Elem) (l : List Elem)
    (e0 : Elem)
    (hno : ∀ c ∈ l, (c.category == cat && c.name == n) = false)
    (he : e0.category = cat ∧ e0.name = n) :
    (l ++ [e0]).map (fun c => if c.category == cat && c.name == n then f c else c) =
    l ++ [f e0] := by
  rw [List.map_append, modify_map_id cat n f l hno]
  simp [he.1, he.2]

theorem getChild_append (l : List Elem) (cat n : String) (e0 : Elem)
    (hno : ∀ c ∈ l, (c.category == cat && c.name == n) = false)
    (he : e0.category = cat ∧ e0.name = n) :
    (l ++ [e0]).find? (fun c => c.category == cat && c.name == n) = some e0 := by
  rw [find?_append_of_none _ _ _
    (List.find?_eq_none.mpr (fun x hx => by simp [hno x hx])),
    List.find?_cons_of_pos _ (by simp [he.1, he.2])]

theorem any_name_false (l : List Elem) (n : String)
    (h : ∀ c ∈ l, (c.name == n) = false) :
    l.any (fun c => c.name == n) = false := by
  rw [List.any_eq_false]
  intro c hc
  simp [h c hc]

/-- C9: for a name not carried by any non-Override sibling, two successive
setOverrideValue calls both succeed and return the Override named n; the
second call updates the existing child in place, so exactly one Override child
named n remains, and its value is the second value set. -/
theorem C9_setOverrideValue_upsert (m : Elem) (n v1 v2 ty : String)
    (hn : n ≠ "")
    (hcat : ∀ c ∈ m.children, c.name = n → c.category = Override.CATEGORY)
    (huniq : (m.children.filter
      (fun c => c.category == Override.CATEGORY && c.name == n)).length ≤ 1) :
    ∃ m1 m2 : Elem,
      Material.setOverrideValue m n v1 ty = some (m1, n) ∧
      Material.setOverrideValue m1 n v2 ty = some (m2, n) ∧
      (m2.children.filter
        (fun c => c.category == Override.CATEGORY && c.name == n)).length = 1 ∧
      ∃ c, m2.getChildOfType Override.CATEGORY n = some c ∧
        c.getAttribute "value" = v2 := by
  have hpres1 : ∀ c : Elem, (ValueElement.setValue c v1 ty).category = c.category ∧
      (ValueElement.setValue c v1 ty).name = c.name :=
    fun c => ⟨ValueElement.category_setValue c v1 ty, ValueElement.name_setValue c v1 ty⟩
  have hpres2 : ∀ c : Elem, (ValueElement.setValue c v2 ty).category = c.category ∧
      (ValueElement.setValue c v2 ty).name = c.name :=
    fun c => ⟨ValueElement.category_setValue c v2 ty, ValueElement.name_setValue c v2 ty⟩
  cases hex : m.getChildOfType Override.CATEGORY n with
  | some c0 =>
    refine ⟨m.modifyChildOfType Override.CATEGORY n
        (fun c => ValueElement.setValue c v1 ty),
      (m.modifyChildOfType Override.CATEGORY n
        (fun c => ValueElement.setValue c v1 ty)).modifyChildOfType
          Override.CATEGORY n (fun c => ValueElement.setValue c v2 ty),
      setOverrideValue_existing m c0 n v1 ty hex, ?_, ?_, ?_⟩
    · exact setOverrideValue_existing _ (ValueElement.setValue c0 v1 ty) n v2 ty
        (by rw [getChildOfType_modify_self _ _ _ _ hpres1, hex]; rfl)
    · rw [filter_children_modify _ _ _ _ hpres2, filter_children_modify _ _ _ _ hpres1]
      have hfind : m.children.find?
          (fun c => c.category == Override.CATEGORY && c.name == n) = some c0 := hex
      have hp := @List.find?_some Elem
        (fun c => c.category == Override.CATEGORY && c.name == n) c0 m.children hfind
      have hmem : c0 ∈ m.children.filter
          (fun c => c.category == Override.CATEGORY && c.name == n) :=
        List.mem_filter.mpr ⟨List.mem_of_find?_eq_some hfind, hp⟩
      have h1 := List.length_pos.mpr (List.ne_nil_of_mem hmem)
      omega
    · refine ⟨ValueElement.setValue (ValueElement.setValue c0 v1 ty) v2 ty, ?_,
        ValueElement.getAttribute_value_setValue _ v2 ty⟩
      rw [getChildOfType_modify_self _ _ _ _ hpres2,
        getChildOfType_modify_self _ _ _ _ hpres1, hex]
      rfl
  | none =>
    have hnoname := no_name_of_only_override m n hcat hex
    have hany := any_name_false m.children n hnoname
    have hnopred := no_child_pred_of_getChild_none m Override.CATEGORY n hex
    have hm1 : (m.setChildren
        (m.children ++ [Elem.mk Override.CATEGORY n [] []])).modifyChildOfType
          Override.CATEGORY n (fun c => ValueElement.setValue c v1 ty) =
        m.setChildren (m.children ++
          [ValueElement.setValue (Elem.mk Override.CATEGORY n [] []) v1 ty]) := by
      unfold Elem.modifyChildOfType
      rw [Elem.children_setChildren, Elem.setChildren_setChildren,
        map_modify_append Override.CATEGORY n _ m.children
          (Elem.mk Override.CATEGORY n [] []) hnopred ⟨rfl, rfl⟩]
    have hget1 : (m.setChildren (m.children ++
        [ValueElement.setValue (Elem.mk Override.CATEGORY n [] []) v1 ty])).getChildOfType
          Override.CATEGORY n =
        some (ValueElement.setValue (Elem.mk Override.CATEGORY n [] []) v1 ty) := by
      unfold Elem.getChildOfType
      rw [Elem.children_setChildren]
      exact getChild_append m.children Override.CATEGORY n
        (ValueElement.setValue (Elem.mk Override.CATEGORY n [] []) v1 ty)
        hnopred ⟨by simp, by simp⟩
    have hm2 : (m.setChildren (m.children ++
        [ValueElement.setValue (Elem.mk Override.CATEGORY n [] []) v1 ty])).modifyChildOfType
          Override.CATEGORY n (fun c => ValueElement.setValue c v2 ty) =
        m.setChildren (m.children ++
          [ValueElement.setValue
            (ValueElement.setValue (Elem.mk Override.CATEGORY n [] []) v1 ty) v2 ty]) := by
      unfold Elem.modifyChildOfType
      rw [Elem.children_setChildren, Elem.setChildren_setChildren,
        map_modify_append Override.CATEGORY n _ m.children
          (ValueElement.setValue (Elem.mk Override.CATEGORY n [] []) v1 ty)
          hnopred ⟨by simp, by simp⟩]
    refine ⟨m.setChildren (m.children ++
        [ValueElement.setValue (Elem.mk Override.CATEGORY n [] []) v1 ty]),
      m.setChildren (m.children ++
        [ValueElement.setValue
          (ValueElement.setValue (Elem.mk Override.CATEGORY n [] []) v1 ty) v2 ty]),
      ?_, ?_, ?_, ?_⟩
    · rw [setOverrideValue_new m n v1 ty hn hex hany, hm1]
    · rw [setOverrideValue_existing _ _ n v2 ty hget1, hm2]
    · rw [Elem.children_setChildren, List.filter_append]
      have hnil : m.children.filter
          (fun c => c.category == Override.CATEGORY && c.name == n) = [] := by
        rw [List.filter_eq_nil_iff]
        intro c hc
        simp [hnopred c hc]
      rw [hnil]
      simp
    · refine ⟨ValueElement.setValue
          (ValueElement.setValue (Elem.mk Override.CATEGORY n [] []) v1 ty) v2 ty, ?_,
        ValueElement.getAttribute_value_setValue _ v2 ty⟩
      unfold Elem.getChildOfType
      rw [Elem.children_setChildren]
      exact getChild_append m.children Override.CATEGORY n
        (ValueElement.setValue
          (ValueElement.setValue (Elem.mk Override.CATEGORY n [] []) v1 ty) v2 ty)
        hnopred ⟨by simp, by simp⟩

/-- Witness for C9: the empty material M and the override name r. -/
theorem C9_setOverrideValue_upsert_witness :
    ∃ m1 m2 : Elem,
      Material.setOverrideValue (Elem.mk Material.CATEGORY "M" [] [])
        "r" "0.5" "float" = some (m1, "r") ∧
      Material.setOverrideValue m1 "r" "0.9" "float" = some (m2, "r") ∧
      (m2.children.filter
        (fun c => c.category == Override.CATEGORY && c.name == "r")).length = 1 ∧
      ∃ c, m2.getChildOfType Override.CATEGORY "r" = some c ∧
        c.getAttribute "value" = "0.9" :=
  C9_setOverrideValue_upsert (Elem.mk Material.CATEGORY "M" [] []) "r" "0.5" "0.9"
    "float" (by decide) (by intro c hc; cases hc) (by decide)

end MaterialX
